import Mathlib

/-!
Shallow embedding of the qstorm benchmark core (qstorm-core) and the CLI's
rolling metrics history (qstorm-cli), with verification of the spec's claims.

Conventions of the embedding:
* machine integers (`u64`, `usize`) become `Nat`;
* `f64` values computed by the code (means, qps, recall ratios) become `ℚ`,
  the idealized-real reading of the floating-point arithmetic;
* wall-clock/monotonic time reads (`Instant::now`, `Utc::now`, `elapsed`)
  become explicit `Nat` parameters supplied by the caller (time oracles);
* the run-wide `hdrhistogram::Histogram` is modelled by the list of values
  passed to its `record` method, which is all the claims need (they only
  speak of it being changed or unchanged);
* the async backend (`dyn SearchProvider`) is opaque I/O: a burst's
  dispatched futures each yield one `(result, latency)` pair, so the list
  collected in `run_burst`'s phase 2 enters the embedding as an explicit
  argument, in completion order; that the runtime yields exactly one item
  per dispatched future (hence `burst_size` many) is a hypothesis of the
  theorems about `run_burst`.
-/

namespace QStorm

/-! ### types.rs -/

/-- A single search result from a provider (`types.rs::SearchResult`);
the JSON payload is opaque to the core, kept as an uninterpreted string. -/
structure SearchResult where
  id : String
  score : ℚ
  payload : Option String
deriving Repr, DecidableEq

/-- Collection of search results from a query (`types.rs::SearchResults`). -/
structure SearchResults where
  results : List SearchResult
  took_ms : Option Nat
  total_hits : Option Nat
deriving Repr, DecidableEq

/-- Parameters for search execution (`types.rs::SearchParams`). -/
structure SearchParams where
  top_k : Nat
  min_score : Option ℚ
  timeout_ms : Nat
  include_payload : Bool
deriving Repr, DecidableEq

/-! ### error.rs -/

/-- The error taxonomy of `error.rs::Error`; the three `transparent`
wrapped errors carry their message as an opaque string. -/
inductive Error where
  | Connection : String → Error
  | Authentication : String → Error
  | QueryExecution : String → Error
  | NotConnected : Error
  | Timeout : Nat → Error
  | Config : String → Error
  | Unsupported : String → Error
  | InvalidResponse : String → Error
  | Io : String → Error
  | SerdeJson : String → Error
  | SerdeYaml : String → Error
deriving Repr, DecidableEq

/-! ### metrics.rs -/

/-- Latency percentiles (`metrics.rs::LatencyMetrics`); `mean_us` is the
code's only `f64` field, embedded as `ℚ`. -/
structure LatencyMetrics where
  min_us : Nat
  max_us : Nat
  mean_us : ℚ
  p50_us : Nat
  p90_us : Nat
  p95_us : Nat
  p99_us : Nat
deriving Repr, DecidableEq

/-- Metrics collected from a single burst of queries
(`metrics.rs::BurstMetrics`). -/
structure BurstMetrics where
  timestamp : Nat
  duration_ms : Nat
  query_count : Nat
  success_count : Nat
  failure_count : Nat
  latency : LatencyMetrics
  qps : ℚ
  recall_at_k : Option ℚ
deriving Repr, DecidableEq

/-- Transient per-burst accumulator (`metrics.rs::BurstState`); the
monotonic `start_time` is not part of the state here, the elapsed duration
is instead passed to `finish_burst` as a time oracle. -/
structure BurstState where
  start_timestamp : Nat
  latencies_us : List Nat
  successes : Nat
  failures : Nat
  recalls : List ℚ
deriving Repr, DecidableEq

/-- Tracks metrics across multiple bursts (`metrics.rs::Metrics`); the
run-wide histogram is modelled by the list of recorded values. -/
structure Metrics where
  latency_histogram : List Nat
  bursts : List BurstMetrics
  current_burst : Option BurstState
deriving Repr, DecidableEq

/-- `Metrics::new` -/
def Metrics.new : Metrics :=
  { latency_histogram := [], bursts := [], current_burst := none }

/-- `Metrics::start_burst`; `now` is the oracle for `Utc::now()`. -/
def Metrics.start_burst (m : Metrics) (now : Nat) : Metrics :=
  { m with
    current_burst := some
      { start_timestamp := now
        latencies_us := []
        successes := 0
        failures := 0
        recalls := [] } }

/-- `Metrics::record_success` -/
def Metrics.record_success (m : Metrics) (latency_us : Nat) (recall_opt : Option ℚ) :
    Metrics :=
  match m.current_burst with
  | none => m
  | some burst =>
    { m with
      current_burst := some
        { burst with
          latencies_us := burst.latencies_us ++ [latency_us]
          successes := burst.successes + 1
          recalls :=
            match recall_opt with
            | some r => burst.recalls ++ [r]
            | none => burst.recalls }
      latency_histogram := m.latency_histogram ++ [latency_us] }

/-- `Metrics::record_failure` -/
def Metrics.record_failure (m : Metrics) (latency_us : Nat) : Metrics :=
  match m.current_burst with
  | none => m
  | some burst =>
    { m with
      current_burst := some
        { burst with
          latencies_us := burst.latencies_us ++ [latency_us]
          failures := burst.failures + 1 }
      latency_histogram := m.latency_histogram ++ [latency_us] }

/-- `metrics.rs::compute_latency_metrics`: nearest-rank percentiles over the
freshly sorted sample; `(p / 100.0) * (n - 1) as f64).round()` becomes exact
rational arithmetic with `round` (round-half-up agrees with Rust's
round-half-away-from-zero on these nonnegative values). -/
def compute_latency_metrics (latencies_us : List Nat) : LatencyMetrics :=
  if latencies_us.isEmpty then
    { min_us := 0, max_us := 0, mean_us := 0
      p50_us := 0, p90_us := 0, p95_us := 0, p99_us := 0 }
  else
    let sorted := latencies_us.insertionSort (· ≤ ·)
    let min_us := sorted.getD 0 0
    let max_us := sorted.getD (sorted.length - 1) 0
    let mean_us : ℚ := (sorted.sum : ℚ) / (sorted.length : ℚ)
    let percentile : ℚ → Nat := fun p =>
      sorted.getD (round (p / 100 * ((sorted.length - 1 : Nat) : ℚ))).toNat 0
    { min_us := min_us, max_us := max_us, mean_us := mean_us
      p50_us := percentile 50, p90_us := percentile 90
      p95_us := percentile 95, p99_us := percentile 99 }

/-- `Metrics::finish_burst`; `duration_ms` is the oracle for
`burst.start_time.elapsed().as_millis()`. Returns the computed
`BurstMetrics` (if a burst was active) together with the updated state. -/
def Metrics.finish_burst (m : Metrics) (duration_ms : Nat) :
    Option BurstMetrics × Metrics :=
  match m.current_burst with
  | none => (none, m)
  | some burst =>
    let query_count := burst.successes + burst.failures
    let qps : ℚ :=
      if duration_ms > 0 then
        (query_count : ℚ) / ((duration_ms : ℚ) / 1000)
      else 0
    let latency := compute_latency_metrics burst.latencies_us
    let recall_at_k : Option ℚ :=
      if burst.recalls.isEmpty then none
      else some (burst.recalls.sum / (burst.recalls.length : ℚ))
    let metrics : BurstMetrics :=
      { timestamp := burst.start_timestamp
        duration_ms := duration_ms
        query_count := query_count
        success_count := burst.successes
        failure_count := burst.failures
        latency := latency
        qps := qps
        recall_at_k := recall_at_k }
    (some metrics, { m with bursts := m.bursts ++ [metrics], current_burst := none })

/-- `metrics.rs::recall_at_k`: the `HashSet` of the first `k` expected ids is
modelled by the list of the first `k` expected ids queried with `contains`
(identical membership semantics). -/
def recall_at_k (returned : List String) (expected : List String) (k : Nat) : ℚ :=
  if expected.isEmpty then 0
  else
    let k := min k expected.length
    let expected_set := expected.take k
    let hits := ((returned.take k).filter (fun id => expected_set.contains id)).length
    (hits : ℚ) / (k : ℚ)

/-! ### config.rs (the part the runner consumes) -/

/-- `config.rs::SearchMode` -/
inductive SearchMode where
  | Vector
  | Hybrid
deriving Repr, DecidableEq

/-- `config.rs::BenchmarkConfig` -/
structure BenchmarkConfig where
  mode : SearchMode
  warmup_iterations : Nat
  burst_size : Nat
  concurrency : Nat
  timeout_ms : Nat
  top_k : Nat
deriving Repr, DecidableEq

/-! ### queries.rs (the part the runner consumes) -/

/-- `queries.rs::EmbeddedQuery`: query text with its `f32` vector. -/
structure EmbeddedQuery where
  text : String
  vector : List ℚ
deriving Repr, DecidableEq

/-! ### runner.rs -/

/-- `runner.rs::BenchmarkRunner`; the boxed `dyn SearchProvider` is opaque
I/O and does not live in the state: each backend call's outcome enters the
embedding as an oracle argument of the operation that performs it. -/
structure BenchmarkRunner where
  config : BenchmarkConfig
  metrics : Metrics
  queries : List EmbeddedQuery
deriving Repr, DecidableEq

/-- The query indices a burst dispatches:
`(0..burst_size).map(|i| i % queries.len())` in `run_burst`. -/
def BenchmarkRunner.query_indices (r : BenchmarkRunner) : List Nat :=
  (List.range r.config.burst_size).map (fun i => i % r.queries.length)

/-- Phase 3 of `run_burst`: record one collected `(result, latency)` tuple
into the metrics (success with `recall = None`, or failure). -/
def record_outcome (m : Metrics) (outcome : Except Error SearchResults × Nat) :
    Metrics :=
  match outcome.1 with
  | .ok _ => m.record_success outcome.2 none
  | .error _ => m.record_failure outcome.2

/-- `BenchmarkRunner::run_burst`. `results` is the list phase 2 collects
from the dispatched futures, in completion order, each entry being one
future's `(result, latency)` yield; `timestamp` and `duration_ms` are the
time oracles for `start_burst` and `finish_burst`. -/
def BenchmarkRunner.run_burst (r : BenchmarkRunner)
    (results : List (Except Error SearchResults × Nat))
    (timestamp duration_ms : Nat) :
    Except Error BurstMetrics × BenchmarkRunner :=
  if r.queries.isEmpty then
    (.error (Error.Config "No queries configured"), r)
  else
    let m0 := r.metrics.start_burst timestamp
    let m1 := results.foldl record_outcome m0
    match m1.finish_burst duration_ms with
    | (some bm, m2) => (.ok bm, { r with metrics := m2 })
    | (none, m2) => (.error (Error.Config "No burst in progress"), { r with metrics := m2 })

/-- `BenchmarkRunner::warmup`: issues `warmup_iterations` sequential
queries, cycling by `i % queries.len()`, and discards every result
(`let _ = self.execute_query(..)`, which takes `&self` and so cannot touch
the metrics). The returned list is the trace of issued query indices;
warmup always returns `Ok(())`. -/
def BenchmarkRunner.warmup (r : BenchmarkRunner) :
    List Nat × Except Error Unit × BenchmarkRunner :=
  if r.queries.isEmpty then ([], .ok (), r)
  else
    ((List.range r.config.warmup_iterations).map (fun i => i % r.queries.length),
     .ok (), r)

/-! ### qstorm-cli app.rs -/

/-- `app.rs::MetricsHistory`: rolling history of metrics for charting. -/
structure MetricsHistory where
  bursts : List BurstMetrics
  max_history : Nat
deriving Repr, DecidableEq

/-- `MetricsHistory::default()`: empty, capacity 100. -/
def MetricsHistory.default : MetricsHistory :=
  { bursts := [], max_history := 100 }

/-- `MetricsHistory::push`: append, then `remove(0)` if over capacity. -/
def MetricsHistory.push (h : MetricsHistory) (metrics : BurstMetrics) :
    MetricsHistory :=
  let bursts := h.bursts ++ [metrics]
  if bursts.length > h.max_history then
    { h with bursts := bursts.eraseIdx 0 }
  else
    { h with bursts := bursts }

/-- `MetricsHistory::latest`: `bursts.last()`. -/
def MetricsHistory.latest (h : MetricsHistory) : Option BurstMetrics :=
  h.bursts.getLast?

/-- A sequence of `push` operations, oldest first. -/
def MetricsHistory.pushAll (h : MetricsHistory) (ms : List BurstMetrics) :
    MetricsHistory :=
  ms.foldl MetricsHistory.push h

/-- A throwaway concrete `BurstMetrics` value, used to instantiate witnesses. -/
def sampleBurst (t : Nat) : BurstMetrics :=
  { timestamp := t, duration_ms := 0, query_count := 0, success_count := 0
    failure_count := 0, latency := ⟨0, 0, 0, 0, 0, 0, 0⟩, qps := 0
    recall_at_k := none }

/-! ### Helper lemmas -/

lemma round_le_round_rat {x y : ℚ} (h : x ≤ y) : round x ≤ round y := by
  rw [round_eq, round_eq]
  exact Int.floor_le_floor (by linarith)

lemma getD_mem_of_lt (s : List Nat) {i : Nat} (h : i < s.length) :
    s.getD i 0 ∈ s := by
  rw [s.getD_eq_getElem 0 h]
  exact List.getElem_mem h

lemma sorted_getD_mono (s : List Nat) (hs : s.Sorted (· ≤ ·)) {i j : Nat}
    (hij : i ≤ j) (hj : j < s.length) : s.getD i 0 ≤ s.getD j 0 := by
  have hi : i < s.length := lt_of_le_of_lt hij hj
  rw [s.getD_eq_getElem 0 hi, s.getD_eq_getElem 0 hj]
  rcases Nat.lt_or_ge i j with hlt | hge
  · exact hs.rel_get_of_lt (a := ⟨i, hi⟩) (b := ⟨j, hj⟩) hlt
  · have : i = j := Nat.le_antisymm hij hge
    subst this
    exact le_refl _

lemma sorted_getD_zero_le (s : List Nat) (hs : s.Sorted (· ≤ ·)) {x : Nat}
    (hx : x ∈ s) : s.getD 0 0 ≤ x := by
  obtain ⟨j, hjx⟩ := List.mem_iff_get.mp hx
  have := sorted_getD_mono s hs (Nat.zero_le j.1) j.2
  rwa [s.getD_eq_getElem 0 j.2, ← List.get_eq_getElem, hjx] at this

lemma le_sorted_getD_last (s : List Nat) (hs : s.Sorted (· ≤ ·)) {x : Nat}
    (hx : x ∈ s) : x ≤ s.getD (s.length - 1) 0 := by
  obtain ⟨j, hjx⟩ := List.mem_iff_get.mp hx
  have hlast : s.length - 1 < s.length := by
    have : 0 < s.length := List.length_pos.mpr (List.ne_nil_of_mem hx)
    omega
  have hle : j.1 ≤ s.length - 1 := by omega
  have := sorted_getD_mono s hs hle hlast
  rwa [s.getD_eq_getElem 0 j.2, ← List.get_eq_getElem, hjx] at this

/-- Phase 3 of `run_burst`, folded over the collected outcome list: starting
from a state with an active burst accumulator, it appends every latency to
the accumulator and the run-wide histogram, bumps the success counter once
per `Ok` outcome and the failure counter once per `Err` outcome, and leaves
the recall list and finished-burst list untouched. -/
lemma foldl_record_outcome (outcomes : List (Except Error SearchResults × Nat)) :
    ∀ (m : Metrics) (bs : BurstState), m.current_burst = some bs →
    outcomes.foldl record_outcome m =
      { latency_histogram := m.latency_histogram ++ outcomes.map (fun o => o.2)
        bursts := m.bursts
        current_burst := some
          { start_timestamp := bs.start_timestamp
            latencies_us := bs.latencies_us ++ outcomes.map (fun o => o.2)
            successes := bs.successes + (outcomes.filter (fun o => o.1.isOk)).length
            failures := bs.failures + (outcomes.filter (fun o => !o.1.isOk)).length
            recalls := bs.recalls } } := by
  induction outcomes with
  | nil =>
    intro m bs h
    cases m with
    | mk hist bursts cur =>
      cases bs
      simp_all
  | cons o rest ih =>
    intro m bs h
    obtain ⟨res, lat⟩ := o
    cases res with
    | ok v =>
      have hstep : record_outcome m (Except.ok v, lat) =
          { latency_histogram := m.latency_histogram ++ [lat]
            bursts := m.bursts
            current_burst := some
              { bs with
                latencies_us := bs.latencies_us ++ [lat]
                successes := bs.successes + 1 } } := by
        simp [record_outcome, Metrics.record_success, h]
      rw [List.foldl_cons, hstep, ih _ _ rfl]
      simp [List.filter_cons, Except.isOk, Except.toBool]
      omega
    | error e =>
      have hstep : record_outcome m (Except.error e, lat) =
          { latency_histogram := m.latency_histogram ++ [lat]
            bursts := m.bursts
            current_burst := some
              { bs with
                latencies_us := bs.latencies_us ++ [lat]
                failures := bs.failures + 1 } } := by
        simp [record_outcome, Metrics.record_failure, h]
      rw [List.foldl_cons, hstep, ih _ _ rfl]
      simp [List.filter_cons, Except.isOk, Except.toBool]
      omega

/-- What one complete `run_burst` does, for a nonempty query set: it
returns `Ok` with the finished `BurstMetrics`, whose success/failure
counters count the `Ok`/`Err` outcomes, whose recall is absent, and whose
latency metrics come from the collected latency sample; the run-wide
histogram receives exactly the collected latencies. -/
lemma run_burst_spec (r : BenchmarkRunner)
    (results : List (Except Error SearchResults × Nat))
    (timestamp duration_ms : Nat) (hq : r.queries ≠ []) :
    ∃ bm r2,
      r.run_burst results timestamp duration_ms = (.ok bm, r2) ∧
      bm.success_count = (results.filter (fun o => o.1.isOk)).length ∧
      bm.failure_count = (results.filter (fun o => !o.1.isOk)).length ∧
      bm.query_count = bm.success_count + bm.failure_count ∧
      bm.recall_at_k = none ∧
      bm.latency = compute_latency_metrics (results.map (fun o => o.2)) ∧
      r2.metrics.latency_histogram =
        r.metrics.latency_histogram ++ results.map (fun o => o.2) ∧
      r2.metrics.bursts = r.metrics.bursts ++ [bm] ∧
      r2.queries = r.queries ∧ r2.config = r.config := by
  have hemp : r.queries.isEmpty = false := by
    simp [List.isEmpty_iff, hq]
  have hstart : (r.metrics.start_burst timestamp).current_burst =
      some { start_timestamp := timestamp, latencies_us := [], successes := 0
             failures := 0, recalls := [] } := rfl
  have hfold := foldl_record_outcome results (r.metrics.start_burst timestamp) _ hstart
  unfold BenchmarkRunner.run_burst
  rw [hemp]
  simp only [Bool.false_eq_true, if_false]
  rw [hfold]
  simp only [Metrics.finish_burst, Metrics.start_burst]
  refine ⟨_, _, rfl, ?_, ?_, ?_, ?_, ?_, ?_, ?_, ?_, ?_⟩ <;> simp

/-- `compute_latency_metrics` on a nonempty sample, phrased against any
sorted permutation `s` of the sample (there is exactly one). -/
lemma compute_latency_metrics_spec (l : List Nat) (hne : l ≠ [])
    (s : List Nat) (hperm : s.Perm l) (hsort : s.Sorted (· ≤ ·)) :
    compute_latency_metrics l =
      { min_us := s.getD 0 0
        max_us := s.getD (s.length - 1) 0
        mean_us := (l.sum : ℚ) / (l.length : ℚ)
        p50_us := s.getD (round ((50 : ℚ) / 100 * ((s.length - 1 : Nat) : ℚ))).toNat 0
        p90_us := s.getD (round ((90 : ℚ) / 100 * ((s.length - 1 : Nat) : ℚ))).toNat 0
        p95_us := s.getD (round ((95 : ℚ) / 100 * ((s.length - 1 : Nat) : ℚ))).toNat 0
        p99_us := s.getD (round ((99 : ℚ) / 100 * ((s.length - 1 : Nat) : ℚ))).toNat 0 } := by
  have hs : s = l.insertionSort (· ≤ ·) := by
    refine List.eq_of_perm_of_sorted ?_ hsort (List.sorted_insertionSort _ l)
    exact hperm.trans (List.perm_insertionSort _ l).symm
  have hemp : l.isEmpty = false := by simp [List.isEmpty_iff, hne]
  have hsum : (l.insertionSort (· ≤ ·)).sum = l.sum :=
    (List.perm_insertionSort _ l).sum_eq
  have hlen : (l.insertionSort (· ≤ ·)).length = l.length :=
    (List.perm_insertionSort _ l).length_eq
  subst hs
  simp [compute_latency_metrics, hemp, hsum, hlen]

/-- Sliding-window characterization of a sequence of `push` operations:
starting from a history within capacity, the retained list is the suffix of
everything ever pushed that fits the capacity, in insertion order. -/
lemma pushAll_window (cap : Nat) (ms : List BurstMetrics) :
    ∀ b : List BurstMetrics, b.length ≤ cap →
    MetricsHistory.pushAll ⟨b, cap⟩ ms =
      ⟨(b ++ ms).drop (b.length + ms.length - cap), cap⟩ := by
  induction ms with
  | nil =>
    intro b hb
    simp [MetricsHistory.pushAll, Nat.sub_eq_zero_of_le hb]
  | cons m rest ih =>
    intro b hb
    have hpush : MetricsHistory.push ⟨b, cap⟩ m =
        ⟨if b.length + 1 > cap then (b ++ [m]).eraseIdx 0 else b ++ [m], cap⟩ := by
      simp only [MetricsHistory.push, List.length_append, List.length_cons,
        List.length_nil]
      split <;> simp_all
    have hstep : MetricsHistory.pushAll ⟨b, cap⟩ (m :: rest) =
        MetricsHistory.pushAll (MetricsHistory.push ⟨b, cap⟩ m) rest := rfl
    rw [hstep, hpush]
    by_cases hcap : b.length + 1 > cap
    · have hbcap : b.length = cap := by omega
      rw [if_pos hcap]
      cases b with
      | nil =>
        have hc0 : cap = 0 := by simpa using hbcap.symm
        subst hc0
        rw [ih _ (by simp)]
        simp
      | cons hd tl =>
        have herase : ((hd :: tl) ++ [m]).eraseIdx 0 = tl ++ [m] := by simp
        have hlen : tl.length + 1 = cap := by simpa using hbcap
        rw [herase, ih _ (by simp; omega)]
        have h1 : (tl ++ [m]).length + rest.length - cap = rest.length := by
          simp; omega
        have h2 : (hd :: tl).length + (m :: rest).length - cap = rest.length + 1 := by
          simp; omega
        rw [h1, h2]
        simp
    · rw [if_neg hcap]
      rw [ih _ (by simp; omega)]
      have h1 : (b ++ [m]).length + rest.length - cap =
          b.length + (m :: rest).length - cap := by
        simp; omega
      rw [h1]
      simp

lemma isOk_ok (v : SearchResults) :
    (Except.ok v : Except Error SearchResults).isOk = true := rfl

lemma isOk_error (e : Error) :
    (Except.error e : Except Error SearchResults).isOk = false := rfl

lemma length_filter_isOk_add (results : List (Except Error SearchResults × Nat)) :
    (results.filter (fun o => o.1.isOk)).length +
      (results.filter (fun o => !o.1.isOk)).length = results.length := by
  induction results with
  | nil => rfl
  | cons o rest ih =>
    cases h : o.1 <;>
      simp [List.filter_cons, h, isOk_ok, isOk_error] <;> omega

/-! ### Concrete values for witnesses -/

def sampleQuery : EmbeddedQuery := { text := "q", vector := [1, 0] }

def sampleConfig : BenchmarkConfig :=
  { mode := .Vector, warmup_iterations := 2, burst_size := 3, concurrency := 2
    timeout_ms := 5000, top_k := 10 }

def sampleRunner : BenchmarkRunner :=
  { config := sampleConfig, metrics := Metrics.new, queries := [sampleQuery] }

def emptyRunner : BenchmarkRunner :=
  { config := sampleConfig, metrics := Metrics.new, queries := [] }

def okResult : Except Error SearchResults :=
  .ok { results := [], took_ms := none, total_hits := none }

def sampleOutcomes : List (Except Error SearchResults × Nat) :=
  [(okResult, 5), (.error (Error.QueryExecution "boom"), 7), (okResult, 6)]

/-! ### Claim theorems -/

/-- C1: every `BurstMetrics` produced by a completed `run_burst` satisfies
`success_count + failure_count = query_count = burst_size`: each of the
`burst_size` dispatched queries (one collected outcome per dispatched
future) is recorded exactly once as a success or a failure, and
`finish_burst` sets `query_count` to successes plus failures. -/
theorem C1_burst_counts (r : BenchmarkRunner)
    (results : List (Except Error SearchResults × Nat))
    (timestamp duration_ms : Nat)
    (hq : r.queries ≠ []) (hlen : results.length = r.config.burst_size) :
    ∃ bm r2, r.run_burst results timestamp duration_ms = (.ok bm, r2) ∧
      bm.success_count + bm.failure_count = bm.query_count ∧
      bm.query_count = r.config.burst_size ∧
      bm.success_count = (results.filter (fun o => o.1.isOk)).length ∧
      bm.failure_count = (results.filter (fun o => !o.1.isOk)).length := by
  obtain ⟨bm, r2, hrun, hsucc, hfail, hqc, -, -, -, -, -, -⟩ :=
    run_burst_spec r results timestamp duration_ms hq
  have hsplit := length_filter_isOk_add results
  exact ⟨bm, r2, hrun, by omega, by omega, hsucc, hfail⟩

/-- C1 witness: a concrete three-query burst with one failure. -/
theorem C1_burst_counts_witness :
    ∃ bm r2, sampleRunner.run_burst sampleOutcomes 0 10 = (.ok bm, r2) ∧
      bm.success_count + bm.failure_count = bm.query_count ∧
      bm.query_count = sampleRunner.config.burst_size ∧
      bm.success_count = (sampleOutcomes.filter (fun o => o.1.isOk)).length ∧
      bm.failure_count = (sampleOutcomes.filter (fun o => !o.1.isOk)).length :=
  C1_burst_counts sampleRunner sampleOutcomes 0 10 (by decide) (by rfl)

/-- C6: `run_burst` returns a `Config` error exactly when the loaded query
set is empty; with queries loaded, per-query failures (whatever the error,
`Unsupported` included) only increment `failure_count` and record a failure
latency (every collected latency, failures included, reaches the run-wide
histogram), and `run_burst` itself still returns `Ok`. -/
theorem C6_failure_policy (r : BenchmarkRunner)
    (results : List (Except Error SearchResults × Nat))
    (timestamp duration_ms : Nat) :
    (r.queries = [] →
      r.run_burst results timestamp duration_ms =
        (.error (Error.Config "No queries configured"), r)) ∧
    (r.queries ≠ [] →
      ∃ bm r2, r.run_burst results timestamp duration_ms = (.ok bm, r2) ∧
        bm.failure_count = (results.filter (fun o => !o.1.isOk)).length ∧
        r2.metrics.latency_histogram =
          r.metrics.latency_histogram ++ results.map (fun o => o.2)) := by
  constructor
  · intro hq
    have hemp : r.queries.isEmpty = true := by simp [hq]
    simp [BenchmarkRunner.run_burst, hemp]
  · intro hq
    obtain ⟨bm, r2, hrun, -, hfail, -, -, -, hhist, -, -, -⟩ :=
      run_burst_spec r results timestamp duration_ms hq
    exact ⟨bm, r2, hrun, hfail, hhist⟩

/-- C6 witness: an empty query set yields the `Config` error, and a burst
whose single outcome is an `Unsupported` hybrid-search failure still
returns `Ok` with that failure counted and its latency recorded. -/
theorem C6_failure_policy_witness :
    emptyRunner.run_burst [] 0 10 =
      (.error (Error.Config "No queries configured"), emptyRunner) ∧
    ∃ bm r2,
      sampleRunner.run_burst [(.error (Error.Unsupported "no hybrid"), 9)] 0 10 =
        (.ok bm, r2) ∧
      bm.failure_count =
        ([((.error (Error.Unsupported "no hybrid") :
            Except Error SearchResults), 9)].filter (fun o => !o.1.isOk)).length ∧
      r2.metrics.latency_histogram =
        sampleRunner.metrics.latency_histogram ++
          [((.error (Error.Unsupported "no hybrid") :
            Except Error SearchResults), 9)].map (fun o => o.2) :=
  ⟨(C6_failure_policy emptyRunner [] 0 10).1 (by rfl),
   (C6_failure_policy sampleRunner
      [(.error (Error.Unsupported "no hybrid"), 9)] 0 10).2 (by decide)⟩

/-- C8: `warmup` issues exactly `warmup_iterations` sequential queries,
selecting query `i % query_count` at iteration `i`, leaves the whole
runner (in particular the metrics state, its burst list and the run-wide
histogram) unchanged, and with no queries loaded issues nothing and still
returns success. -/
theorem C8_warmup_no_metrics (r : BenchmarkRunner) :
    ((r.warmup).2.2 = r ∧
     (r.warmup).2.2.metrics.bursts = r.metrics.bursts ∧
     (r.warmup).2.2.metrics.latency_histogram = r.metrics.latency_histogram ∧
     (r.warmup).2.1 = .ok ()) ∧
    (r.queries = [] → (r.warmup).1 = []) ∧
    (r.queries ≠ [] →
      (r.warmup).1.length = r.config.warmup_iterations ∧
      ∀ i, i < r.config.warmup_iterations →
        (r.warmup).1.getD i 0 = i % r.queries.length) := by
  refine ⟨⟨?_, ?_, ?_, ?_⟩, ?_, ?_⟩
  · unfold BenchmarkRunner.warmup
    split <;> rfl
  · unfold BenchmarkRunner.warmup
    split <;> rfl
  · unfold BenchmarkRunner.warmup
    split <;> rfl
  · unfold BenchmarkRunner.warmup
    split <;> rfl
  · intro hq
    simp [BenchmarkRunner.warmup, hq]
  · intro hq
    have hemp : r.queries.isEmpty = false := by simp [List.isEmpty_iff, hq]
    refine ⟨?_, ?_⟩
    · simp [BenchmarkRunner.warmup, hemp]
    · intro i hi
      have hwarm : (r.warmup).1 = (List.range r.config.warmup_iterations).map
          (fun j => j % r.queries.length) := by
        simp [BenchmarkRunner.warmup, hemp]
      rw [hwarm, List.getD_eq_getElem _ _ (by simpa using hi)]
      simp

/-- C8 witness: warmup on the sample runner issues indices `[0, 0]` and
changes nothing. -/
theorem C8_warmup_no_metrics_witness :
    (sampleRunner.warmup).2.2 = sampleRunner ∧
    (sampleRunner.warmup).2.1 = .ok () ∧
    (sampleRunner.warmup).1.length = sampleRunner.config.warmup_iterations ∧
    (sampleRunner.warmup).1.getD 1 0 = 1 % sampleRunner.queries.length :=
  ⟨(C8_warmup_no_metrics sampleRunner).1.1,
   (C8_warmup_no_metrics sampleRunner).1.2.2.2,
   ((C8_warmup_no_metrics sampleRunner).2.2 (by decide)).1,
   ((C8_warmup_no_metrics sampleRunner).2.2 (by decide)).2 1 (by decide)⟩

/-- C9: with no active burst (`current_burst = none`), `record_success`
and `record_failure` leave the entire `Metrics` state (histogram included)
unchanged, and `finish_burst` yields no result and also leaves the state
unchanged. (That at most one burst accumulator exists at a time is
structural: the state holds a single `Option BurstState`.) -/
theorem C9_no_active_burst_noop (m : Metrics) (h : m.current_burst = none)
    (latency_us : Nat) (recall_opt : Option ℚ) (duration_ms : Nat) :
    m.record_success latency_us recall_opt = m ∧
    m.record_failure latency_us = m ∧
    m.finish_burst duration_ms = (none, m) := by
  refine ⟨?_, ?_, ?_⟩ <;>
    simp [Metrics.record_success, Metrics.record_failure, Metrics.finish_burst, h]

/-- C9 witness: the fresh metrics state has no active burst. -/
theorem C9_no_active_burst_noop_witness :
    Metrics.new.record_success 5 none = Metrics.new ∧
    Metrics.new.record_failure 5 = Metrics.new ∧
    Metrics.new.finish_burst 10 = (none, Metrics.new) :=
  C9_no_active_burst_noop Metrics.new (by rfl) 5 none 10

/-- C10: the runner records every successful query with `recall = None`,
so a burst's recall list stays empty and the `BurstMetrics` returned by
`run_burst` always carries `recall_at_k = none`. -/
theorem C10_recall_always_none (r : BenchmarkRunner)
    (results : List (Except Error SearchResults × Nat))
    (timestamp duration_ms : Nat) (hq : r.queries ≠ []) :
    ∃ bm r2, r.run_burst results timestamp duration_ms = (.ok bm, r2) ∧
      bm.recall_at_k = none := by
  obtain ⟨bm, r2, hrun, -, -, -, hrecall, -, -, -, -, -⟩ :=
    run_burst_spec r results timestamp duration_ms hq
  exact ⟨bm, r2, hrun, hrecall⟩

/-- C10 witness: the concrete sample burst has no recall value. -/
theorem C10_recall_always_none_witness :
    ∃ bm r2, sampleRunner.run_burst sampleOutcomes 0 10 = (.ok bm, r2) ∧
      bm.recall_at_k = none :=
  C10_recall_always_none sampleRunner sampleOutcomes 0 10 (by decide)

/-- The `metrics` value `finish_burst` builds from an active accumulator. -/
def burstSnapshot (b : BurstState) (d : Nat) : BurstMetrics :=
  { timestamp := b.start_timestamp
    duration_ms := d
    query_count := b.successes + b.failures
    success_count := b.successes
    failure_count := b.failures
    latency := compute_latency_metrics b.latencies_us
    qps :=
      if d > 0 then ((b.successes + b.failures : Nat) : ℚ) / ((d : ℚ) / 1000)
      else 0
    recall_at_k :=
      if b.recalls.isEmpty then none
      else some (b.recalls.sum / (b.recalls.length : ℚ)) }

lemma finish_burst_of_some (m : Metrics) (b : BurstState)
    (hb : m.current_burst = some b) (d : Nat) :
    m.finish_burst d =
      (some (burstSnapshot b d),
       { m with bursts := m.bursts ++ [burstSnapshot b d], current_burst := none }) := by
  unfold Metrics.finish_burst
  rw [hb]
  rfl

/-- C3: for a finished burst with a nonempty latency sample, the
`LatencyMetrics` that `finish_burst` computes comes from the exact sorted
sample: `min_us`/`max_us` are the least/greatest recorded latencies,
`mean_us` is the arithmetic mean, and each percentile `p` is the sorted
sample's entry at nearest-rank index `round(p/100 * (n-1))`, stated
against any sorted permutation `s` of the sample. -/
theorem C3_latency_from_sorted_sample (m : Metrics) (b : BurstState)
    (hb : m.current_burst = some b) (hne : b.latencies_us ≠ [])
    (duration_ms : Nat) (s : List Nat)
    (hperm : s.Perm b.latencies_us) (hsort : s.Sorted (· ≤ ·)) :
    ∃ bm m2, m.finish_burst duration_ms = (some bm, m2) ∧
      bm.latency.min_us ∈ b.latencies_us ∧
      (∀ x ∈ b.latencies_us, bm.latency.min_us ≤ x) ∧
      bm.latency.max_us ∈ b.latencies_us ∧
      (∀ x ∈ b.latencies_us, x ≤ bm.latency.max_us) ∧
      bm.latency.mean_us = (b.latencies_us.sum : ℚ) / (b.latencies_us.length : ℚ) ∧
      bm.latency.p50_us =
        s.getD (round ((50 : ℚ) / 100 * ((s.length - 1 : Nat) : ℚ))).toNat 0 ∧
      bm.latency.p90_us =
        s.getD (round ((90 : ℚ) / 100 * ((s.length - 1 : Nat) : ℚ))).toNat 0 ∧
      bm.latency.p95_us =
        s.getD (round ((95 : ℚ) / 100 * ((s.length - 1 : Nat) : ℚ))).toNat 0 ∧
      bm.latency.p99_us =
        s.getD (round ((99 : ℚ) / 100 * ((s.length - 1 : Nat) : ℚ))).toNat 0 := by
  have hslen : 0 < s.length := by
    rw [hperm.length_eq]
    exact List.length_pos.mpr hne
  have hcomp := compute_latency_metrics_spec b.latencies_us hne s hperm hsort
  have hlat : (burstSnapshot b duration_ms).latency =
      compute_latency_metrics b.latencies_us := rfl
  refine ⟨_, _, finish_burst_of_some m b hb duration_ms, ?_, ?_, ?_, ?_, ?_, ?_,
    ?_, ?_, ?_⟩ <;> rw [hlat, hcomp]
  · exact hperm.subset (getD_mem_of_lt s hslen)
  · intro x hx
    exact sorted_getD_zero_le s hsort (hperm.mem_iff.mpr hx)
  · exact hperm.subset (getD_mem_of_lt s (by omega))
  · intro x hx
    exact le_sorted_getD_last s hsort (hperm.mem_iff.mpr hx)

/-- C3 witness: a concrete burst with latencies `[3, 1, 2]` and sorted
sample `[1, 2, 3]`. -/
theorem C3_latency_from_sorted_sample_witness :
    ∃ bm m2,
      (Metrics.mk [3, 1, 2] []
        (some ⟨7, [3, 1, 2], 2, 1, []⟩)).finish_burst 1 = (some bm, m2) ∧
      bm.latency.min_us ∈ [3, 1, 2] ∧
      (∀ x ∈ [3, 1, 2], bm.latency.min_us ≤ x) ∧
      bm.latency.max_us ∈ [3, 1, 2] ∧
      (∀ x ∈ [3, 1, 2], x ≤ bm.latency.max_us) ∧
      bm.latency.mean_us = (([3, 1, 2] : List Nat).sum : ℚ) / (([3, 1, 2] : List Nat).length : ℚ) ∧
      bm.latency.p50_us =
        ([1, 2, 3] : List Nat).getD (round ((50 : ℚ) / 100 * ((([1, 2, 3] : List Nat).length - 1 : Nat) : ℚ))).toNat 0 ∧
      bm.latency.p90_us =
        ([1, 2, 3] : List Nat).getD (round ((90 : ℚ) / 100 * ((([1, 2, 3] : List Nat).length - 1 : Nat) : ℚ))).toNat 0 ∧
      bm.latency.p95_us =
        ([1, 2, 3] : List Nat).getD (round ((95 : ℚ) / 100 * ((([1, 2, 3] : List Nat).length - 1 : Nat) : ℚ))).toNat 0 ∧
      bm.latency.p99_us =
        ([1, 2, 3] : List Nat).getD (round ((99 : ℚ) / 100 * ((([1, 2, 3] : List Nat).length - 1 : Nat) : ℚ))).toNat 0 :=
  C3_latency_from_sorted_sample
    (Metrics.mk [3, 1, 2] [] (some ⟨7, [3, 1, 2], 2, 1, []⟩))
    ⟨7, [3, 1, 2], 2, 1, []⟩ (by rfl) (by decide) 1 [1, 2, 3]
    (by decide) (by decide)

/-- C4: for a nonempty latency sample, the computed per-burst
`LatencyMetrics` is ordered:
`min_us ≤ p50_us ≤ p90_us ≤ p95_us ≤ p99_us ≤ max_us`. -/
theorem C4_percentiles_ordered (l : List Nat) (hne : l ≠ []) :
    (compute_latency_metrics l).min_us ≤ (compute_latency_metrics l).p50_us ∧
    (compute_latency_metrics l).p50_us ≤ (compute_latency_metrics l).p90_us ∧
    (compute_latency_metrics l).p90_us ≤ (compute_latency_metrics l).p95_us ∧
    (compute_latency_metrics l).p95_us ≤ (compute_latency_metrics l).p99_us ∧
    (compute_latency_metrics l).p99_us ≤ (compute_latency_metrics l).max_us := by
  have hsort : (l.insertionSort (· ≤ ·)).Sorted (· ≤ ·) :=
    List.sorted_insertionSort _ l
  have hperm : (l.insertionSort (· ≤ ·)).Perm l := List.perm_insertionSort _ l
  have hcomp := compute_latency_metrics_spec l hne _ hperm hsort
  set s := l.insertionSort (· ≤ ·)
  have hslen : 0 < s.length := by
    rw [hperm.length_eq]
    exact List.length_pos.mpr hne
  have hidx_le : ∀ p q : ℚ, 0 ≤ p → p ≤ q →
      (round (p / 100 * ((s.length - 1 : Nat) : ℚ))).toNat ≤
        (round (q / 100 * ((s.length - 1 : Nat) : ℚ))).toNat := by
    intro p q hp hpq
    apply Int.toNat_le_toNat
    apply round_le_round_rat
    apply mul_le_mul_of_nonneg_right _ (by positivity)
    linarith
  have hidx_hi : ∀ p : ℚ, 0 ≤ p → p ≤ 100 →
      (round (p / 100 * ((s.length - 1 : Nat) : ℚ))).toNat ≤ s.length - 1 := by
    intro p hp0 hp100
    have h1 : p / 100 * ((s.length - 1 : Nat) : ℚ) ≤ ((s.length - 1 : Nat) : ℚ) := by
      have hc : (0 : ℚ) ≤ ((s.length - 1 : Nat) : ℚ) := by positivity
      have hp1 : p / 100 ≤ 1 := by linarith
      calc p / 100 * ((s.length - 1 : Nat) : ℚ)
          ≤ 1 * ((s.length - 1 : Nat) : ℚ) := mul_le_mul_of_nonneg_right hp1 hc
        _ = ((s.length - 1 : Nat) : ℚ) := one_mul _
    have h2 : round (p / 100 * ((s.length - 1 : Nat) : ℚ)) ≤ ((s.length - 1 : Nat) : ℤ) := by
      calc round (p / 100 * ((s.length - 1 : Nat) : ℚ))
          ≤ round (((s.length - 1 : Nat) : ℚ)) := round_le_round_rat h1
        _ = ((s.length - 1 : Nat) : ℤ) := round_natCast _
    have h3 := Int.toNat_le_toNat h2
    simpa using h3
  rw [hcomp]
  refine ⟨?_, ?_, ?_, ?_, ?_⟩
  · exact sorted_getD_mono s hsort (Nat.zero_le _)
      (by have := hidx_hi 50 (by norm_num) (by norm_num); omega)
  · exact sorted_getD_mono s hsort (hidx_le 50 90 (by norm_num) (by norm_num))
      (by have := hidx_hi 90 (by norm_num) (by norm_num); omega)
  · exact sorted_getD_mono s hsort (hidx_le 90 95 (by norm_num) (by norm_num))
      (by have := hidx_hi 95 (by norm_num) (by norm_num); omega)
  · exact sorted_getD_mono s hsort (hidx_le 95 99 (by norm_num) (by norm_num))
      (by have := hidx_hi 99 (by norm_num) (by norm_num); omega)
  · exact sorted_getD_mono s hsort (hidx_hi 99 (by norm_num) (by norm_num))
      (by omega)

/-- C4 witness: the sample `[3, 1, 2]`. -/
theorem C4_percentiles_ordered_witness :
    (compute_latency_metrics [3, 1, 2]).min_us ≤ (compute_latency_metrics [3, 1, 2]).p50_us ∧
    (compute_latency_metrics [3, 1, 2]).p50_us ≤ (compute_latency_metrics [3, 1, 2]).p90_us ∧
    (compute_latency_metrics [3, 1, 2]).p90_us ≤ (compute_latency_metrics [3, 1, 2]).p95_us ∧
    (compute_latency_metrics [3, 1, 2]).p95_us ≤ (compute_latency_metrics [3, 1, 2]).p99_us ∧
    (compute_latency_metrics [3, 1, 2]).p99_us ≤ (compute_latency_metrics [3, 1, 2]).max_us :=
  C4_percentiles_ordered [3, 1, 2] (by decide)

/-- C2: evaluation of `recall_at_k` at the input of the repository's own
unit test `metrics.rs::tests::test_recall_at_k`. The test asserts the
result is `1.0` (all three expected ids sit in the top five returned), but
the code clamps `k` to `expected.len() = 3` and then truncates *returned*
to that clamped `k` as well, so only `[a, b, c]` is scanned and the result
is `2/3`: the code contradicts its own test. -/
theorem C2_recall_truncates_returned_to_clamped_k :
    recall_at_k ["a", "b", "c", "d", "e"] ["a", "c", "e"] 5 = 2 / 3 ∧
    recall_at_k ["a", "b", "c", "d", "e"] ["a", "c", "e"] 5 ≠ 1 := by
  have h : recall_at_k ["a", "b", "c", "d", "e"] ["a", "c", "e"] 5 = 2 / 3 := by
    simp +decide [recall_at_k]
  refine ⟨h, ?_⟩
  rw [h]
  norm_num

lemma push_bursts_of_full (h : MetricsHistory) (m : BurstMetrics)
    (hfull : h.max_history ≤ h.bursts.length) :
    (h.push m).bursts = (h.bursts ++ [m]).eraseIdx 0 := by
  simp only [MetricsHistory.push, List.length_append, List.length_cons,
    List.length_nil, List.eraseIdx_zero]
  split
  · rfl
  · exfalso
    omega

lemma push_bursts_of_lt (h : MetricsHistory) (m : BurstMetrics)
    (hlt : h.bursts.length < h.max_history) :
    (h.push m).bursts = h.bursts ++ [m] := by
  simp only [MetricsHistory.push, List.length_append, List.length_cons,
    List.length_nil]
  split
  · exfalso
    omega
  · rfl

/-- C7: the rolling history is a bounded FIFO. The default capacity is
100; starting within capacity, no sequence of pushes ever exceeds the
capacity; a push onto a full history evicts exactly the oldest entry while
a push below capacity evicts nothing (insertion order is preserved in both
cases); `latest` returns the most recently pushed entry (for a positive
capacity) and `none` on an empty history; and after `capacity + 1` pushes
into an empty history the retained list is exactly the pushes minus the
first, so the first-pushed entry is gone and the last-pushed is present
and returned by `latest`. -/
theorem C7_rolling_history_bounded_fifo :
    (MetricsHistory.default.bursts = [] ∧
     MetricsHistory.default.max_history = 100) ∧
    (∀ (h : MetricsHistory) (ms : List BurstMetrics),
        h.bursts.length ≤ h.max_history →
        (h.pushAll ms).bursts.length ≤ h.max_history) ∧
    (∀ (h : MetricsHistory) (m : BurstMetrics),
        h.bursts.length = h.max_history → h.bursts ≠ [] →
        (h.push m).bursts = h.bursts.tail ++ [m]) ∧
    (∀ (h : MetricsHistory) (m : BurstMetrics),
        h.bursts.length < h.max_history →
        (h.push m).bursts = h.bursts ++ [m]) ∧
    (∀ (h : MetricsHistory) (m : BurstMetrics),
        h.bursts.length ≤ h.max_history → 0 < h.max_history →
        (h.push m).latest = some m) ∧
    (∀ cap : Nat, MetricsHistory.latest ⟨[], cap⟩ = none) ∧
    (∀ (cap : Nat) (ms : List BurstMetrics), 0 < cap → ms.length = cap + 1 →
        (MetricsHistory.pushAll ⟨[], cap⟩ ms).bursts = ms.tail ∧
        (MetricsHistory.pushAll ⟨[], cap⟩ ms).latest = ms.getLast? ∧
        ∀ m0, ms.head? = some m0 → m0 ∉ ms.tail →
          m0 ∉ (MetricsHistory.pushAll ⟨[], cap⟩ ms).bursts) := by
  refine ⟨⟨rfl, rfl⟩, ?_, ?_, ?_, ?_, ?_, ?_⟩
  · intro h ms hlen
    obtain ⟨b, cap⟩ := h
    simp only at hlen ⊢
    rw [pushAll_window cap ms b hlen]
    simp
    omega
  · intro h m hfull hne
    rw [push_bursts_of_full h m (le_of_eq hfull.symm)]
    cases hb : h.bursts with
    | nil => exact absurd hb hne
    | cons hd tl => simp
  · intro h m hlt
    exact push_bursts_of_lt h m hlt
  · intro h m hlen hpos
    rcases Nat.lt_or_ge h.bursts.length h.max_history with hlt | hge
    · simp only [MetricsHistory.latest]
      rw [push_bursts_of_lt h m hlt]
      exact List.getLast?_concat _
    · simp only [MetricsHistory.latest]
      rw [push_bursts_of_full h m hge]
      cases hb : h.bursts with
      | nil =>
        rw [hb] at hge
        simp at hge
        omega
      | cons hd tl =>
        simp
  · intro cap
    rfl
  · intro cap ms hpos hlen
    have hwin := pushAll_window cap ms [] (by simp)
    have hdrop : 0 + ms.length - cap = 1 := by omega
    have hbursts : (MetricsHistory.pushAll ⟨[], cap⟩ ms).bursts = ms.tail := by
      rw [hwin]
      simp only [List.nil_append, List.length_nil, hdrop, List.drop_one]
    refine ⟨hbursts, ?_, ?_⟩
    · simp only [MetricsHistory.latest]
      rw [hbursts]
      cases ms with
      | nil =>
        rw [List.length_nil] at hlen
        omega
      | cons a tl =>
        cases tl with
        | nil =>
          rw [List.length_cons, List.length_nil] at hlen
          omega
        | cons b rest =>
          simp
    · intro m0 hhead hnot
      rw [hbursts]
      exact hnot

/-- C7 witness: capacity 2, three pushes. -/
theorem C7_rolling_history_bounded_fifo_witness :
    (MetricsHistory.pushAll ⟨[], 2⟩
        [sampleBurst 0, sampleBurst 1, sampleBurst 2]).bursts =
      [sampleBurst 0, sampleBurst 1, sampleBurst 2].tail ∧
    (MetricsHistory.pushAll ⟨[], 2⟩
        [sampleBurst 0, sampleBurst 1, sampleBurst 2]).latest =
      [sampleBurst 0, sampleBurst 1, sampleBurst 2].getLast? ∧
    sampleBurst 0 ∉ (MetricsHistory.pushAll ⟨[], 2⟩
        [sampleBurst 0, sampleBurst 1, sampleBurst 2]).bursts ∧
    (MetricsHistory.pushAll ⟨[], 2⟩
        [sampleBurst 0, sampleBurst 1, sampleBurst 2]).bursts.length ≤ 2 := by
  have h6 := C7_rolling_history_bounded_fifo.2.2.2.2.2.2 2
    [sampleBurst 0, sampleBurst 1, sampleBurst 2] (by decide) (by rfl)
  have h1 := C7_rolling_history_bounded_fifo.2.1 ⟨[], 2⟩
    [sampleBurst 0, sampleBurst 1, sampleBurst 2] (by decide)
  exact ⟨h6.1, h6.2.1, h6.2.2 (sampleBurst 0) (by rfl) (by decide), h1⟩

end QStorm
